import Mathlib

/-!
Verification development for the Hotwheel-Redline-Scrape pipeline
(src/hotwheel_scrape.py).

The embedding models the pure data flow of the program:

* a pandas cell is `Option String` (`none` is NaN);
* a parsed logical table (one element of the list `pd.read_html` returns)
  is a `Grid`: a column count plus rows of cells;
* the effectful boundary of `scrape_url` (HTTP fetch, HTML parse,
  filesystem) is an explicit environment `ScrapeEnv`; exceptions become
  `Except ScrapeError`, and the `try/except` wrapper that turns every
  caught exception into `None` becomes `Except.toOption`;
* a pandas `DataFrame` exchanged between `create_csv_files` and
  `create_combined_csv_file` is a `Table`: a list of column labels plus
  rows of cells;
* string comparisons are done through the executable comparator `strLtB`,
  proved below to agree with the lexicographic order `<` on `String`
  (Python compares strings by code points, exactly as `String.lt` does).
-/

/-- Model of one pandas cell: a string value, or `none` for NaN. -/
abbrev Cell := Option String

/-- Model of one logical table produced by `pd.read_html`: a column count and
the data rows (rectangular in pandas; the count is carried explicitly because
`df.iloc[:, 1]` checks the column count even when there are no rows). -/
structure Grid where
  ncols : Nat
  rows : List (List Cell)
deriving DecidableEq

/-- Model of the exceptions that can arise inside the `try` block of
`scrape_url`, tagged by the `except` clause that catches them:
`network` is `requests.RequestException` (fetch failure or
`raise_for_status`), `valueErr` is `ValueError` (the explicit no-table
`raise` and the `pd.read_html` failure on a row-less table), and
`indexErr` / `fsError` are `IndexError` / `OSError`, both caught by the
final `except Exception`. -/
inductive ScrapeError where
  | network (msg : String)
  | valueErr (msg : String)
  | indexErr (msg : String)
  | fsError (msg : String)
deriving DecidableEq

/-- Environment of one `scrape_url` call, fixing the outcome of its three
effectful steps. `fetch` is `requests.get`: an exception message, or the
final HTTP status of the response. `pageTables` is
`soup.find("table")` composed with `pd.read_html`: `none` when the HTML has
no table element, otherwise the list of logical tables pandas parses from
the first table element (pandas drops row-less tables, so an empty table
element yields `some []`). `fsResult` is the outcome of
`os.makedirs` + `DataFrame.to_csv`. -/
structure ScrapeEnv where
  fetch : Except String Nat
  pageTables : Option (List Grid)
  fsResult : Except String Unit

/-- Substring test, modelling the Python expression `pat in s`. -/
def strContains (s pat : String) : Bool :=
  s.toList.tails.any (fun t => pat.toList.isPrefixOf t)

/-- Executable lexicographic strict comparison of strings by code points,
the comparison Python uses on `str`. Proved equivalent to `<` on `String`
in `strLtB_iff` below. -/
def strLtB (a b : String) : Bool :=
  decide (a.toList < b.toList)

/-- Executable non-strict string comparison: `a ≤ b` iff not `b < a`. -/
def strLeB (a b : String) : Bool :=
  ! strLtB b a

/-- Model of `response.raise_for_status()`: the `requests` library raises
`HTTPError` exactly for status codes 400–599 (client and server errors);
other codes, including non-2xx ones such as 304, pass through. -/
def raise_for_status (status : Nat) : Except ScrapeError Unit :=
  if 400 ≤ status ∧ status < 600 then
    Except.error (ScrapeError.network "HTTP error status")
  else Except.ok ()

/-- Model of `pd.read_html(io.StringIO(str(table)))[table_index]`:
`pd.read_html` raises `ValueError` when the markup yields no (row-bearing)
tables, and the `[table_index]` subscript raises `IndexError` when the
index is out of range of the parsed list. -/
def read_html_select (tables : List Grid) (tableIndex : Nat) :
    Except ScrapeError Grid :=
  if tables.isEmpty then Except.error (ScrapeError.valueErr "No tables found")
  else
    match tables[tableIndex]? with
    | some g => Except.ok g
    | none => Except.error (ScrapeError.indexErr "list index out of range")

/-- Blanking of one row for `df.iloc[:, 1] = np.nan`: the cell at positional
index 1 becomes NaN. -/
def rowBlankSecond : List Cell → List Cell
  | a :: _ :: t => a :: none :: t
  | r => r

/-- Model of `df.iloc[:, 1] = np.nan`: pandas raises `IndexError` when the
frame has fewer than two columns, and otherwise overwrites the whole second
column with NaN. -/
def blankSecondColumn (g : Grid) : Except ScrapeError Grid :=
  if 2 ≤ g.ncols then
    Except.ok { ncols := g.ncols, rows := g.rows.map rowBlankSecond }
  else
    Except.error
      (ScrapeError.indexErr "single positional indexer is out-of-bounds")

/-- Model of `df.stack()`: flatten the frame row-major into one sequence of
values, dropping NaN cells. -/
def stack (g : Grid) : List String :=
  (g.rows.map (fun r => r.filterMap id)).flatten

/-- Model of `df.sort_values(by=main_column_name)`: sort the single value
column lexicographically. pandas uses an unstable quicksort, but on a frame
whose only column is the sort key every correct sort produces the same
list, so a sort by ordered insertion is an exact model. -/
def sort_values (l : List String) : List String :=
  List.insertionSort (fun a b => strLeB a b = true) l

/-- The `rename_map` dictionary, copied verbatim from the source. -/
def rename_map : List (String × String) :=
  [("Mongoose 2", "Mongoose II"),
   ("Snake 2", "Snake II"),
   ("Mongoose II Funny Car", "Mongoose II"),
   ("Snake II Funny Car", "Snake II"),
   ("Mongoose Funny Car", "Mongoose"),
   ("Snake Funny Car", "Snake"),
   ("Mongoose Funny Rail Dragster", "Mongoose Rail Dragster"),
   ("Alive 55", "Alive \x2755"),
   ("King Cuda", "King \x27Cuda"),
   ("Grasshopper", "Grass Hopper")]

/-- Action of `Series.replace(rename_map)` on one value: a dictionary
replace rewrites a cell only when the whole value equals a key. -/
def applyRename (s : String) : String :=
  (rename_map.lookup s).getD s

/-- Model of `df[main_column_name] = df[main_column_name].replace(rename_map)`. -/
def replaceVals (l : List String) : List String :=
  l.map applyRename

/-- Model of `df.drop_duplicates()` on a single-column frame: keep the first
occurrence of each value, preserving order; `seen` accumulates the values
already emitted. -/
def dropDupSeen (seen : List String) : List String → List String
  | [] => []
  | x :: xs =>
    if x ∈ seen then dropDupSeen seen xs
    else x :: dropDupSeen (x :: seen) xs

/-- Model of `df.drop_duplicates()`. -/
def drop_duplicates (l : List String) : List String :=
  dropDupSeen [] l

/-- Lines 77–91 of the source as a function on the flattened value list:
`sort_values`, then `replace(rename_map)`, then `drop_duplicates`. -/
def normalizePass (l : List String) : List String :=
  drop_duplicates (replaceVals (sort_values l))

/-- The Normalizer on a grid: `stack` then `normalizePass`. -/
def normalize_names (g : Grid) : List String :=
  normalizePass (stack g)

/-- Lines 70–91 of the source: the optional `snake_mongoose` blanking of the
second column, then flatten / sort / replace / deduplicate. -/
def process_grid (outfile : String) (g : Grid) :
    Except ScrapeError (List String) :=
  match (if strContains outfile "snake_mongoose" then blankSecondColumn g
         else Except.ok g) with
  | Except.error e => Except.error e
  | Except.ok g2 => Except.ok (normalize_names g2)

/-- Body of the `try` block of `scrape_url`, paired with the list of export
files it writes. Each effectful step is read from the environment; the
write of `outfile` happens only after every earlier step has succeeded
(`os.makedirs` + `to_csv` are the last fallible statements before
`return df.copy()`). -/
def scrape_attempt (env : ScrapeEnv) (tableIndex : Nat) (outfile : String) :
    Except ScrapeError (List String) × List String :=
  match env.fetch with
  | Except.error m => (Except.error (ScrapeError.network m), [])
  | Except.ok status =>
    match raise_for_status status with
    | Except.error e => (Except.error e, [])
    | Except.ok _ =>
      match env.pageTables with
      | none => (Except.error (ScrapeError.valueErr "No table found"), [])
      | some tables =>
        match read_html_select tables tableIndex with
        | Except.error e => (Except.error e, [])
        | Except.ok g =>
          match process_grid outfile g with
          | Except.error e => (Except.error e, [])
          | Except.ok names =>
            match env.fsResult with
            | Except.error m => (Except.error (ScrapeError.fsError m), [])
            | Except.ok _ => (Except.ok names, [outfile])

/-- Model of `scrape_url`: the three `except` clauses catch every
`ScrapeError` and fall through to `return None`, which is exactly
`Except.toOption`. The `main_column_name` argument (`col`) only names the
single output column and does not affect the computed values. -/
def scrape_url (env : ScrapeEnv) (tableIndex : Nat) (outfile col : String) :
    Option (List String) :=
  (scrape_attempt env tableIndex outfile).1.toOption

/-- Export files written by one `scrape_url` call. -/
def scrape_writes (env : ScrapeEnv) (tableIndex : Nat) (outfile col : String) :
    List String :=
  (scrape_attempt env tableIndex outfile).2

/-- Model of a pandas `DataFrame` passed between the orchestrator and the
merger: column labels plus rows of cells (one cell per column label). -/
structure Table where
  cols : List String
  rows : List (List Cell)
deriving DecidableEq

/-- The `BASE_URL` constant of the source. -/
def BASE_URL : String := "https://onlineredlineguide.com"

/-- The `OUTPUT_DIR` constant of the source. -/
def OUTPUT_DIR : String := "output/reports"

/-- URL built for one unit in `create_csv_files`. -/
def urlFor (label : String) : String :=
  BASE_URL ++ "/" ++ label ++ ".html"

/-- Output path built for one unit in `create_csv_files`. -/
def outfileFor (label : String) : String :=
  OUTPUT_DIR ++ "/hotwheels-" ++ label ++ ".csv"

/-- Model of `create_csv_files`: run `scrape_url` for every
`(label, table_index)` unit of the group dictionary, skip the `None`
results, tag each surviving frame with its label as a new `dictKey`
column, and concatenate. The thread pool only affects the order in which
the per-unit frames are appended, never their contents; the model collects
them in submission order. When every unit fails the source returns
`pd.DataFrame()`, an empty frame with no columns. `world` gives the
scrape environment in effect at each URL. -/
def create_csv_files (col dictKey : String) (world : String → ScrapeEnv)
    (units : List (String × Nat)) : Table :=
  if (units.filterMap (fun u =>
      (scrape_url (world (urlFor u.1)) u.2 (outfileFor u.1) col).map
        (fun names => (names, u.1)))).isEmpty then
    { cols := [], rows := [] }
  else
    { cols := [col, dictKey],
      rows := ((units.filterMap (fun u =>
        (scrape_url (world (urlFor u.1)) u.2 (outfileFor u.1) col).map
          (fun names => (names, u.1)))).map
            (fun p => p.1.map (fun n => [some n, some p.2]))).flatten }

/-- Cell of a concatenated frame at a given column label: `pd.concat`
aligns frames by label and fills the columns a frame lacks with NaN, so a
row contributes `none` at any label outside its own table's columns. -/
def cellAt (t : Table) (r : List Cell) (c : String) : Cell :=
  match t.cols.findIdx? (fun c2 => c2 == c) with
  | some i =>
    match r[i]? with
    | some v => v
    | none => none
  | none => none

/-- Projection of one row of one input table to the three columns the
merger reads. -/
def tripleOf (col : String) (t : Table) (r : List Cell) :
    Cell × Cell × Cell :=
  (cellAt t r col, cellAt t r "Year", cellAt t r "Series")

/-- Model of `pd.concat([all_years_df, all_series_df], ignore_index=True)`,
projected to the three columns the merger reads. -/
def concatTriples (col : String) (t1 t2 : Table) :
    List (Cell × Cell × Cell) :=
  t1.rows.map (tripleOf col t1) ++ t2.rows.map (tripleOf col t2)

/-- Sorted insertion without duplicates, the building block for
`sorted(set(...))` and for the sorted group keys of `groupby`. -/
def insertSorted (x : String) : List String → List String
  | [] => [x]
  | y :: ys =>
    if strLtB x y then x :: y :: ys
    else if x = y then y :: ys
    else y :: insertSorted x ys

/-- Model of `sorted(set(l))`: the strictly sorted list of the distinct
elements of `l`. -/
def sortedSet (l : List String) : List String :=
  l.foldr insertSorted []

/-- One row of the final catalog: a canonical name with its aggregated
year and series lists. -/
structure CatalogRow where
  name : String
  years : List String
  series : List String
deriving DecidableEq

/-- Model of `create_combined_csv_file`. The column precondition is the
`issubset` check of the source; on failure the function logs, returns, and
writes nothing (`none`). Otherwise: `groupby(main_column_name)` drops NaN
keys and sorts the group keys (the later `sort_values` is then a no-op),
and each aggregation lambda computes `sorted(set(column.dropna()))`.
`some` carries the catalog that is written to `redlines.csv` and
`redlines.json`. -/
def create_combined_csv_file (col : String) (t1 t2 : Table) :
    Option (List CatalogRow) :=
  if ([col, "Year", "Series"]).all
      (fun c => (t1.cols ++ t2.cols).contains c) then
    some ((sortedSet ((concatTriples col t1 t2).filterMap (fun r => r.1))).map
      (fun k =>
        { name := k,
          years := sortedSet
            (((concatTriples col t1 t2).filter (fun r => r.1 == some k)).filterMap
              (fun r => r.2.1)),
          series := sortedSet
            (((concatTriples col t1 t2).filter (fun r => r.1 == some k)).filterMap
              (fun r => r.2.2)) }))
  else none

/-- Occurrence of a canonical name in one input table: some row carries it
in the name column. -/
def nameOccursIn (col : String) (t : Table) (n : String) : Prop :=
  ∃ r ∈ t.rows, cellAt t r col = some n

/-- Occurrence of a year with a given name in one input table. -/
def yearOccursWith (col : String) (t : Table) (n y : String) : Prop :=
  ∃ r ∈ t.rows, cellAt t r col = some n ∧ cellAt t r "Year" = some y

/-- Occurrence of a series with a given name in one input table. -/
def seriesOccursWith (col : String) (t : Table) (n s : String) : Prop :=
  ∃ r ∈ t.rows, cellAt t r col = some n ∧ cellAt t r "Series" = some s

/-- Specification-side flattening: row-major concatenation of the non-null
cell values of a grid, written independently of `stack`. -/
def flattenRowMajor (g : Grid) : List String :=
  g.rows.foldr (fun r acc => r.filterMap id ++ acc) []

/-- Specification-side ordered insertion, keeping an element before the
first position whose value is not strictly smaller. -/
def insertLe (x : String) : List String → List String
  | [] => [x]
  | y :: ys => if strLtB y x then y :: insertLe x ys else x :: y :: ys

/-- Specification-side lexicographic sort by value. -/
def sortedLex (l : List String) : List String :=
  l.foldr insertLe []

/-- Specification-side order-preserving removal of exact duplicates: keep
the first occurrence of each value. -/
def dedupKeepFirst (l : List String) : List String :=
  l.foldl (fun acc x => if x ∈ acc then acc else acc ++ [x]) []

/-- One-column grid holding a list of names, the shape of a persisted
group export read back as data. -/
def oneColGrid (l : List String) : Grid :=
  { ncols := 1, rows := l.map (fun s => [some s]) }

/-- Rewrite of the cell at positional index 1 of one row. -/
def mapSecondCell (f : Cell → Cell) : List Cell → List Cell
  | a :: b :: t => a :: f b :: t
  | r => r

/-- Rewrite of the whole second column of a grid, leaving every other
column untouched. -/
def mapSecondColumn (f : Cell → Cell) (g : Grid) : Grid :=
  { ncols := g.ncols, rows := g.rows.map (mapSecondCell f) }

/-- Concrete years table of the witness scenario from the specification:
rows (Mongoose, 1968) and (Snake, 1969). -/
def wYearsTable : Table :=
  { cols := ["Casting", "Year"],
    rows := [[some "Mongoose", some "1968"], [some "Snake", some "1969"]] }

/-- Concrete series table of the witness scenario: row (Mongoose, classics). -/
def wSeriesTable : Table :=
  { cols := ["Casting", "Series"],
    rows := [[some "Mongoose", some "classics"]] }

/-- Concrete years table lacking the Year column, for the precondition
mismatch scenario. -/
def wBadYearsTable : Table :=
  { cols := ["Casting"], rows := [[some "Mongoose"]] }

/-- Concrete page environment: one table with one Snake row, everything
succeeding, final HTTP status 304 (non-2xx, non-error). -/
def cexEnv304 : ScrapeEnv :=
  { fetch := Except.ok 304,
    pageTables := some [{ ncols := 1, rows := [[some "Snake"]] }],
    fsResult := Except.ok () }

/-- Concrete page environment: one table with one Snake row, status 200. -/
def wEnvOk : ScrapeEnv :=
  { fetch := Except.ok 200,
    pageTables := some [{ ncols := 1, rows := [[some "Snake"]] }],
    fsResult := Except.ok () }

/-- Concrete page environment with HTTP status 404. -/
def wEnv404 : ScrapeEnv :=
  { fetch := Except.ok 404,
    pageTables := some [{ ncols := 1, rows := [[some "Snake"]] }],
    fsResult := Except.ok () }

/-- Concrete page environment: page fetched with status 200 but the HTML
has no table element. -/
def wEnvNoTable : ScrapeEnv :=
  { fetch := Except.ok 200, pageTables := none, fsResult := Except.ok () }

/-- Concrete page environment: the table element exists but has no rows,
so pandas parses no logical tables. -/
def wEnvEmptyTable : ScrapeEnv :=
  { fetch := Except.ok 200, pageTables := some [], fsResult := Except.ok () }

/-- Concrete one-column grid. -/
def wGridOneCol : Grid := { ncols := 1, rows := [[some "X"]] }

/-- Concrete page environment whose single parsed table has one column. -/
def wEnvOneCol : ScrapeEnv :=
  { fetch := Except.ok 200,
    pageTables := some [wGridOneCol],
    fsResult := Except.ok () }

/-- Concrete two-column grid for the blanking witness. -/
def wGrid2 : Grid :=
  { ncols := 2, rows := [[some "A", some "B"], [some "C", some "D"]] }

/-- Concrete grid on which re-normalization changes the output: the sort
happens before the renames, and the renames break the sorted order. -/
def gcexRenorm : Grid :=
  { ncols := 1, rows := [[some "Mongoose 2"], [some "Mongoose Funny Car"]] }

/-- World in which every fetch raises, for the all-units-fail witness. -/
def wWorldFail : String → ScrapeEnv :=
  fun _ =>
    { fetch := Except.error "connection refused", pageTables := none,
      fsResult := Except.ok () }


theorem strLtB_iff (a b : String) : strLtB a b = true ↔ a < b := by
  rw [String.lt_iff_toList_lt, strLtB, decide_eq_true_iff]

theorem strLeB_iff (a b : String) : strLeB a b = true ↔ a ≤ b := by
  rw [strLeB, Bool.not_eq_true', ← Bool.not_eq_true, strLtB_iff, not_lt]

theorem insertSorted_cons (x y : String) (ys : List String) :
    insertSorted x (y :: ys) =
      if strLtB x y = true then x :: y :: ys
      else if x = y then y :: ys
      else y :: insertSorted x ys := rfl

theorem mem_insertSorted {a x : String} {l : List String} :
    a ∈ insertSorted x l ↔ a = x ∨ a ∈ l := by
  induction l with
  | nil => simp [insertSorted]
  | cons y ys ih =>
    rw [insertSorted_cons]
    by_cases h1 : strLtB x y = true
    · rw [if_pos h1]
      simp [List.mem_cons]
    · rw [if_neg h1]
      by_cases h2 : x = y
      · subst h2
        rw [if_pos rfl]
        simp [List.mem_cons]
      · rw [if_neg h2]
        simp only [List.mem_cons, ih]
        tauto

theorem pairwise_insertSorted {x : String} {l : List String}
    (h : l.Pairwise (· < ·)) : (insertSorted x l).Pairwise (· < ·) := by
  induction l with
  | nil => simp [insertSorted]
  | cons y ys ih =>
    rw [List.pairwise_cons] at h
    obtain ⟨hy, hys⟩ := h
    rw [insertSorted_cons]
    by_cases h1 : strLtB x y = true
    · have hxy : x < y := (strLtB_iff x y).mp h1
      rw [if_pos h1, List.pairwise_cons]
      refine ⟨?_, by rw [List.pairwise_cons]; exact ⟨hy, hys⟩⟩
      intro z hz
      rcases List.mem_cons.mp hz with rfl | hz'
      · exact hxy
      · exact lt_trans hxy (hy z hz')
    · rw [if_neg h1]
      by_cases h2 : x = y
      · subst h2
        rw [if_pos rfl, List.pairwise_cons]
        exact ⟨hy, hys⟩
      · have hyx : y < x := by
          rcases lt_trichotomy x y with hlt | heq | hgt
          · exact absurd ((strLtB_iff x y).mpr hlt) h1
          · exact absurd heq h2
          · exact hgt
        rw [if_neg h2, List.pairwise_cons]
        refine ⟨?_, ih hys⟩
        intro z hz
        rcases mem_insertSorted.mp hz with rfl | hz'
        · exact hyx
        · exact hy z hz'

theorem mem_sortedSet {a : String} {l : List String} :
    a ∈ sortedSet l ↔ a ∈ l := by
  induction l with
  | nil => simp [sortedSet]
  | cons x xs ih =>
    simp only [sortedSet, List.foldr_cons] at *
    rw [mem_insertSorted, ih, List.mem_cons]

theorem pairwise_sortedSet (l : List String) :
    (sortedSet l).Pairwise (· < ·) := by
  induction l with
  | nil => simp [sortedSet]
  | cons x xs ih =>
    simp only [sortedSet, List.foldr_cons] at *
    exact pairwise_insertSorted ih

theorem mem_keys_iff (col : String) (t1 t2 : Table) (n : String) :
    n ∈ sortedSet ((concatTriples col t1 t2).filterMap (fun r => r.1)) ↔
      nameOccursIn col t1 n ∨ nameOccursIn col t2 n := by
  rw [mem_sortedSet, List.mem_filterMap]
  constructor
  · rintro ⟨r, hr, h1⟩
    rw [concatTriples, List.mem_append] at hr
    rcases hr with hr | hr
    · obtain ⟨row, hrow, rfl⟩ := List.mem_map.mp hr
      exact Or.inl ⟨row, hrow, h1⟩
    · obtain ⟨row, hrow, rfl⟩ := List.mem_map.mp hr
      exact Or.inr ⟨row, hrow, h1⟩
  · rintro (⟨row, hrow, h1⟩ | ⟨row, hrow, h1⟩)
    · refine ⟨tripleOf col t1 row, ?_, h1⟩
      rw [concatTriples, List.mem_append]
      exact Or.inl (List.mem_map_of_mem _ hrow)
    · refine ⟨tripleOf col t2 row, ?_, h1⟩
      rw [concatTriples, List.mem_append]
      exact Or.inr (List.mem_map_of_mem _ hrow)

theorem mem_group_agg_split (col : String) (t1 t2 : Table) (k : String)
    (p : Cell × Cell × Cell → Cell) (v : String) :
    v ∈ sortedSet
        (((concatTriples col t1 t2).filter (fun r => r.1 == some k)).filterMap p) ↔
      (∃ row ∈ t1.rows,
          cellAt t1 row col = some k ∧ p (tripleOf col t1 row) = some v)
      ∨ (∃ row ∈ t2.rows,
          cellAt t2 row col = some k ∧ p (tripleOf col t2 row) = some v) := by
  rw [mem_sortedSet, List.mem_filterMap]
  constructor
  · rintro ⟨r, hr, hv⟩
    rw [List.mem_filter] at hr
    obtain ⟨hmem, hbeq⟩ := hr
    have hk : r.1 = some k := by simpa using hbeq
    rw [concatTriples, List.mem_append] at hmem
    rcases hmem with hm | hm
    · obtain ⟨row, hrow, rfl⟩ := List.mem_map.mp hm
      exact Or.inl ⟨row, hrow, hk, hv⟩
    · obtain ⟨row, hrow, rfl⟩ := List.mem_map.mp hm
      exact Or.inr ⟨row, hrow, hk, hv⟩
  · rintro (⟨row, hrow, hk, hv⟩ | ⟨row, hrow, hk, hv⟩)
    · refine ⟨tripleOf col t1 row, List.mem_filter.mpr ⟨?_, by simpa using hk⟩, hv⟩
      rw [concatTriples, List.mem_append]
      exact Or.inl (List.mem_map_of_mem _ hrow)
    · refine ⟨tripleOf col t2 row, List.mem_filter.mpr ⟨?_, by simpa using hk⟩, hv⟩
      rw [concatTriples, List.mem_append]
      exact Or.inr (List.mem_map_of_mem _ hrow)

/-- Claim C1: with the column precondition satisfied (and a name column
distinct from the two label columns, as in the program, where it is
"Casting"), the Catalog Merger produces exactly one output row per distinct
canonical name occurring in either input table, sorted strictly by name;
each row carries the sorted duplicate-free list of exactly the non-null
Year values attached to that name across both tables, and likewise for
Series, these lists being empty when no such value occurs. -/
theorem merger_one_row_per_name (col : String) (t1 t2 : Table)
    (hcol1 : col ≠ "Year") (hcol2 : col ≠ "Series")
    (hpre : ∀ c ∈ [col, "Year", "Series"], c ∈ t1.cols ++ t2.cols) :
    ∃ m, create_combined_csv_file col t1 t2 = some m
      ∧ m.Pairwise (fun a b => a.name < b.name)
      ∧ (∀ n, (∃ e ∈ m, e.name = n) ↔
          nameOccursIn col t1 n ∨ nameOccursIn col t2 n)
      ∧ (∀ e ∈ m,
          e.years.Pairwise (· < ·)
          ∧ (∀ y, y ∈ e.years ↔
              yearOccursWith col t1 e.name y ∨ yearOccursWith col t2 e.name y)
          ∧ e.series.Pairwise (· < ·)
          ∧ (∀ sv, sv ∈ e.series ↔
              seriesOccursWith col t1 e.name sv ∨
                seriesOccursWith col t2 e.name sv)) := by
  have hguard : ([col, "Year", "Series"]).all
      (fun c => (t1.cols ++ t2.cols).contains c) = true := by
    rw [List.all_eq_true]
    intro c hc
    exact List.elem_iff.mpr (hpre c hc)
  unfold create_combined_csv_file
  rw [if_pos hguard]
  refine ⟨_, rfl, ?_, ?_, ?_⟩
  · rw [List.pairwise_map]
    exact pairwise_sortedSet _
  · intro n
    constructor
    · rintro ⟨e, he, rfl⟩
      obtain ⟨k, hk, rfl⟩ := List.mem_map.mp he
      exact (mem_keys_iff col t1 t2 k).mp hk
    · intro h
      exact ⟨_, List.mem_map_of_mem _ ((mem_keys_iff col t1 t2 n).mpr h), rfl⟩
  · intro e he
    obtain ⟨k, hk, rfl⟩ := List.mem_map.mp he
    refine ⟨pairwise_sortedSet _, ?_, pairwise_sortedSet _, ?_⟩
    · intro y
      exact mem_group_agg_split col t1 t2 k (fun r => r.2.1) y
    · intro sv
      exact mem_group_agg_split col t1 t2 k (fun r => r.2.2) sv

/-- Witness for C1, the merge scenario of the specification: years table
[(Mongoose, 1968), (Snake, 1969)] and series table [(Mongoose, classics)]. -/
theorem merger_one_row_per_name_witness :
    (("Casting" : String) ≠ "Year") ∧ (("Casting" : String) ≠ "Series")
    ∧ (∀ c ∈ ["Casting", "Year", "Series"],
        c ∈ wYearsTable.cols ++ wSeriesTable.cols)
    ∧ ∃ m, create_combined_csv_file "Casting" wYearsTable wSeriesTable = some m
        ∧ m.Pairwise (fun a b => a.name < b.name)
        ∧ (∀ n, (∃ e ∈ m, e.name = n) ↔
            nameOccursIn "Casting" wYearsTable n ∨
              nameOccursIn "Casting" wSeriesTable n)
        ∧ (∀ e ∈ m,
            e.years.Pairwise (· < ·)
            ∧ (∀ y, y ∈ e.years ↔
                yearOccursWith "Casting" wYearsTable e.name y ∨
                  yearOccursWith "Casting" wSeriesTable e.name y)
            ∧ e.series.Pairwise (· < ·)
            ∧ (∀ sv, sv ∈ e.series ↔
                seriesOccursWith "Casting" wYearsTable e.name sv ∨
                  seriesOccursWith "Casting" wSeriesTable e.name sv)) :=
  ⟨by decide, by decide, by decide,
    merger_one_row_per_name "Casting" wYearsTable wSeriesTable
      (by decide) (by decide) (by decide)⟩

/-- Claim C2: when the union of the two input tables' columns misses one of
the expected columns, the Catalog Merger writes neither the CSV nor the
JSON artifact and returns normally; the model returns `none`, which stands
for the log-and-skip path that performs no file write. -/
theorem merger_skips_on_missing_columns (col : String) (t1 t2 : Table)
    (h : ¬ ∀ c ∈ [col, "Year", "Series"], c ∈ t1.cols ++ t2.cols) :
    create_combined_csv_file col t1 t2 = none := by
  have hc : ¬ (([col, "Year", "Series"]).all
      (fun c => (t1.cols ++ t2.cols).contains c) = true) := by
    intro hall
    exact h (fun c hcmem => List.elem_iff.mp (List.all_eq_true.mp hall c hcmem))
  unfold create_combined_csv_file
  rw [if_neg hc]

/-- Witness for C2, the precondition-mismatch scenario: the years table has
no Year column and the series table none either, so the merger skips. -/
theorem merger_skips_on_missing_columns_witness :
    (¬ ∀ c ∈ ["Casting", "Year", "Series"],
        c ∈ wBadYearsTable.cols ++ wSeriesTable.cols)
    ∧ create_combined_csv_file "Casting" wBadYearsTable wSeriesTable = none :=
  ⟨by decide,
    merger_skips_on_missing_columns "Casting" wBadYearsTable wSeriesTable
      (by decide)⟩

theorem flatten_map_eq_foldr (f : List Cell → List String) :
    ∀ L : List (List Cell),
      (L.map f).flatten = L.foldr (fun r acc => f r ++ acc) [] := by
  intro L
  induction L with
  | nil => rfl
  | cons r rs ih => simp only [List.map_cons, List.flatten_cons, List.foldr_cons, ih]

theorem stack_eq_flattenRowMajor (g : Grid) : stack g = flattenRowMajor g :=
  flatten_map_eq_foldr (fun r => r.filterMap id) g.rows

theorem insertLe_eq_orderedInsert (x : String) (l : List String) :
    insertLe x l = List.orderedInsert (fun a b => strLeB a b = true) x l := by
  induction l with
  | nil => rfl
  | cons y ys ih =>
    rw [List.orderedInsert]
    show (if strLtB y x = true then y :: insertLe x ys else x :: y :: ys) = _
    by_cases h : strLtB y x = true
    · have hle : ¬ (strLeB x y = true) := by
        rw [strLeB, h]
        simp
      rw [if_pos h, if_neg hle, ih]
    · have hle : strLeB x y = true := by
        rw [strLeB, Bool.not_eq_true] at *
        rw [h]
        rfl
      rw [if_neg h, if_pos hle]

theorem sortedLex_eq_sort_values (l : List String) :
    sortedLex l = sort_values l := by
  unfold sortedLex sort_values
  induction l with
  | nil => rfl
  | cons x xs ih =>
    rw [List.foldr_cons, List.insertionSort, ← ih, insertLe_eq_orderedInsert]

theorem dropDupSeen_congr :
    ∀ (xs s1 s2 : List String), (∀ a, a ∈ s1 ↔ a ∈ s2) →
      dropDupSeen s1 xs = dropDupSeen s2 xs := by
  intro xs
  induction xs with
  | nil => intro s1 s2 _; rfl
  | cons x xs ih =>
    intro s1 s2 h
    unfold dropDupSeen
    by_cases hx : x ∈ s1
    · rw [if_pos hx, if_pos ((h x).mp hx)]
      exact ih s1 s2 h
    · rw [if_neg hx, if_neg (fun c => hx ((h x).mpr c))]
      rw [ih (x :: s1) (x :: s2) (fun a => by
        simp only [List.mem_cons]
        rw [h a])]

theorem foldl_dedup_eq (xs : List String) :
    ∀ acc : List String,
      xs.foldl (fun acc x => if x ∈ acc then acc else acc ++ [x]) acc =
        acc ++ dropDupSeen acc xs := by
  induction xs with
  | nil => intro acc; simp [dropDupSeen]
  | cons x xs ih =>
    intro acc
    rw [List.foldl_cons]
    unfold dropDupSeen
    by_cases hx : x ∈ acc
    · rw [if_pos hx, if_pos hx, ih]
    · rw [if_neg hx, if_neg hx, ih (acc ++ [x]), List.append_assoc]
      congr 1
      rw [List.singleton_append]
      congr 1
      exact dropDupSeen_congr xs (acc ++ [x]) (x :: acc) (fun a => by
        simp only [List.mem_append, List.mem_cons, List.mem_singleton]
        tauto)

theorem drop_duplicates_eq_dedupKeepFirst (l : List String) :
    drop_duplicates l = dedupKeepFirst l := by
  unfold drop_duplicates dedupKeepFirst
  rw [foldl_dedup_eq, List.nil_append]

theorem mem_of_lookup_some : ∀ (l : List (String × String)) (k v : String),
    l.lookup k = some v → (k, v) ∈ l := by
  intro l
  induction l with
  | nil => intro k v h; cases h
  | cons kv r ih =>
    intro k v h
    obtain ⟨k1, v1⟩ := kv
    rw [List.lookup_cons] at h
    by_cases hk : (k == k1) = true
    · rw [hk] at h
      simp only [] at h
      cases h
      have hkk : k = k1 := by simpa using hk
      subst hkk
      exact List.mem_cons_self _ _
    · rw [Bool.not_eq_true] at hk
      rw [hk] at h
      simp only [] at h
      exact List.mem_cons_of_mem _ (ih k v h)

theorem lookup_eq_none_of_not_key :
    ∀ (l : List (String × String)) (s : String),
      s ∉ l.map Prod.fst → l.lookup s = none := by
  intro l
  induction l with
  | nil => intro s _; rfl
  | cons kv r ih =>
    intro s h
    obtain ⟨k1, v1⟩ := kv
    simp only [List.map_cons, List.mem_cons] at h
    push_neg at h
    obtain ⟨h1, h2⟩ := h
    rw [List.lookup_cons]
    have hk : (s == k1) = false := by simpa using h1
    rw [hk]
    exact ih s h2

/-- Claim C3: the Normalizer performs exactly flatten (row-major), then
lexicographic sort, then the exact full-value synonym rewrite, then
order-preserving removal of exact duplicates; the rewrite maps each of the
ten table entries to its canonical form and leaves every value outside the
key set unchanged (so no substring ever triggers a rewrite), and an empty
flattened sequence yields an empty result. -/
theorem normalizer_steps_order (g : Grid) :
    normalize_names g =
      dedupKeepFirst ((sortedLex (flattenRowMajor g)).map applyRename)
    ∧ (∀ kv ∈ rename_map, applyRename kv.1 = kv.2)
    ∧ (∀ s, s ∉ rename_map.map Prod.fst → applyRename s = s)
    ∧ (flattenRowMajor g = [] → normalize_names g = []) := by
  have hmain : normalize_names g =
      dedupKeepFirst ((sortedLex (flattenRowMajor g)).map applyRename) := by
    show drop_duplicates (replaceVals (sort_values (stack g))) = _
    rw [stack_eq_flattenRowMajor, ← sortedLex_eq_sort_values,
      drop_duplicates_eq_dedupKeepFirst]
    rfl
  refine ⟨hmain, by decide, ?_, ?_⟩
  · intro s hs
    unfold applyRename
    rw [lookup_eq_none_of_not_key rename_map s hs]
    rfl
  · intro h
    rw [hmain, h]
    rfl

/-- Witness for C3 at concrete grids: the pipeline equality at one grid,
and the empty-flatten edge case discharged at the row-less grid. -/
theorem normalizer_steps_order_witness :
    normalize_names gcexRenorm =
      dedupKeepFirst ((sortedLex (flattenRowMajor gcexRenorm)).map applyRename)
    ∧ flattenRowMajor { ncols := 1, rows := [] } = []
    ∧ normalize_names { ncols := 1, rows := [] } = [] :=
  ⟨(normalizer_steps_order gcexRenorm).1, rfl,
    (normalizer_steps_order { ncols := 1, rows := [] }).2.2.2 rfl⟩

theorem mem_dropDupSeen {a : String} :
    ∀ {seen l : List String}, a ∈ dropDupSeen seen l → a ∈ l ∧ a ∉ seen := by
  intro seen l
  induction l generalizing seen with
  | nil => intro h; cases h
  | cons x xs ih =>
    intro h
    unfold dropDupSeen at h
    by_cases hx : x ∈ seen
    · rw [if_pos hx] at h
      obtain ⟨h1, h2⟩ := ih h
      exact ⟨List.mem_cons_of_mem _ h1, h2⟩
    · rw [if_neg hx] at h
      rcases List.mem_cons.mp h with rfl | h'
      · exact ⟨List.mem_cons_self _ _, hx⟩
      · obtain ⟨h1, h2⟩ := ih h'
        exact ⟨List.mem_cons_of_mem _ h1,
          fun c => h2 (List.mem_cons_of_mem _ c)⟩

theorem mem_dropDupSeen_of {a : String} :
    ∀ {seen l : List String}, a ∈ l → a ∉ seen → a ∈ dropDupSeen seen l := by
  intro seen l
  induction l generalizing seen with
  | nil => intro h _; cases h
  | cons x xs ih =>
    intro hl hs
    unfold dropDupSeen
    by_cases hx : x ∈ seen
    · rw [if_pos hx]
      rcases List.mem_cons.mp hl with rfl | h'
      · exact absurd hx hs
      · exact ih h' hs
    · rw [if_neg hx]
      by_cases hax : a = x
      · subst hax
        exact List.mem_cons_self _ _
      · rcases List.mem_cons.mp hl with rfl | h'
        · exact absurd rfl hax
        · refine List.mem_cons_of_mem _ (ih h' ?_)
          intro c
          rcases List.mem_cons.mp c with rfl | c'
          · exact hax rfl
          · exact hs c'

theorem nodup_dropDupSeen : ∀ (seen l : List String),
    (dropDupSeen seen l).Nodup := by
  intro seen l
  induction l generalizing seen with
  | nil => exact List.nodup_nil
  | cons x xs ih =>
    unfold dropDupSeen
    by_cases hx : x ∈ seen
    · rw [if_pos hx]
      exact ih seen
    · rw [if_neg hx]
      rw [List.nodup_cons]
      refine ⟨?_, ih (x :: seen)⟩
      intro c
      exact (mem_dropDupSeen c).2 (List.mem_cons_self _ _)

theorem dropDupSeen_eq_self : ∀ (seen l : List String),
    l.Nodup → (∀ a ∈ l, a ∉ seen) → dropDupSeen seen l = l := by
  intro seen l
  induction l generalizing seen with
  | nil => intro _ _; rfl
  | cons x xs ih =>
    intro hnd h
    rw [List.nodup_cons] at hnd
    obtain ⟨hx, hxs⟩ := hnd
    unfold dropDupSeen
    rw [if_neg (h x (List.mem_cons_self _ _))]
    congr 1
    refine ih (x :: seen) hxs ?_
    intro a ha c
    rcases List.mem_cons.mp c with rfl | c'
    · exact hx ha
    · exact h a (List.mem_cons_of_mem _ ha) c'

theorem mem_drop_duplicates {a : String} {l : List String} :
    a ∈ drop_duplicates l ↔ a ∈ l := by
  constructor
  · intro h
    exact (mem_dropDupSeen h).1
  · intro h
    exact mem_dropDupSeen_of h (by simp)

theorem values_not_keys :
    ∀ v ∈ rename_map.map Prod.snd, rename_map.lookup v = none := by decide

theorem applyRename_fix (s : String) :
    applyRename (applyRename s) = applyRename s := by
  unfold applyRename
  cases h : rename_map.lookup s with
  | none =>
    simp only [Option.getD_none]
    rw [h, Option.getD_none]
  | some v =>
    simp only [Option.getD_some]
    rw [values_not_keys v
      (List.mem_map_of_mem Prod.snd (mem_of_lookup_some rename_map s v h))]
    rfl

theorem normalizePass_elem_fix {x : String} {l : List String}
    (h : x ∈ normalizePass l) : applyRename x = x := by
  unfold normalizePass at h
  have h1 : x ∈ replaceVals (sort_values l) := mem_drop_duplicates.mp h
  unfold replaceVals at h1
  obtain ⟨y, _, rfl⟩ := List.mem_map.mp h1
  exact applyRename_fix y

theorem nodup_normalizePass (l : List String) : (normalizePass l).Nodup :=
  nodup_dropDupSeen [] _

instance : IsTotal String (fun a b => strLeB a b = true) :=
  ⟨fun a b => by
    rcases le_total a b with h | h
    · exact Or.inl ((strLeB_iff a b).mpr h)
    · exact Or.inr ((strLeB_iff b a).mpr h)⟩

instance : IsTrans String (fun a b => strLeB a b = true) :=
  ⟨fun a b c h1 h2 =>
    (strLeB_iff a c).mpr
      (le_trans ((strLeB_iff a b).mp h1) ((strLeB_iff b c).mp h2))⟩

theorem sort_values_perm (l : List String) : (sort_values l).Perm l :=
  List.perm_insertionSort _ l

theorem sort_values_sorted (l : List String) :
    List.Sorted (· ≤ ·) (sort_values l) :=
  (List.sorted_insertionSort _ l).imp (fun h => (strLeB_iff _ _).mp h)

theorem sort_values_eq_of_sorted {l : List String}
    (h : List.Sorted (· ≤ ·) l) : sort_values l = l :=
  List.Sorted.insertionSort_eq (h.imp (fun hab => (strLeB_iff _ _).mpr hab))

theorem stack_oneColGrid (l : List String) : stack (oneColGrid l) = l := by
  unfold stack oneColGrid
  induction l with
  | nil => rfl
  | cons x xs ih =>
    simp only [List.map_cons, List.flatten_cons] at *
    rw [ih]
    rfl

/-- Counterexample to claim C9 as stated: the Normalizer sorts before it
applies the synonym rewrites, and the rewrites can break the sorted order,
so re-normalizing an already-canonical output can permute it. On the grid
[[Mongoose 2], [Mongoose Funny Car]] the output is
[Mongoose II, Mongoose]; normalizing that output again yields
[Mongoose, Mongoose II], a different sequence. -/
theorem normalize_not_idempotent_cex :
    normalize_names gcexRenorm = ["Mongoose II", "Mongoose"]
    ∧ normalize_names (oneColGrid (normalize_names gcexRenorm)) =
        ["Mongoose", "Mongoose II"]
    ∧ normalize_names (oneColGrid (normalize_names gcexRenorm)) ≠
        normalize_names gcexRenorm := by decide

/-- Claim C9 (amended): re-normalizing an output of the Normalizer yields
the same names re-sorted — the rewrite table fixes every canonical name and
the output is duplicate-free, so the second pass only sorts. The result is
a permutation of the first output, and equals it exactly when the first
output happens to be sorted. -/
theorem normalize_reapply (g : Grid) :
    normalize_names (oneColGrid (normalize_names g)) =
      sort_values (normalize_names g)
    ∧ (normalize_names (oneColGrid (normalize_names g))).Perm
        (normalize_names g)
    ∧ (List.Sorted (· ≤ ·) (normalize_names g) →
        normalize_names (oneColGrid (normalize_names g)) = normalize_names g) := by
  have key : normalize_names (oneColGrid (normalize_names g)) =
      sort_values (normalize_names g) := by
    show normalizePass (stack (oneColGrid (normalize_names g))) = _
    rw [stack_oneColGrid]
    show drop_duplicates
      (replaceVals (sort_values (normalize_names g))) = _
    have h1 : replaceVals (sort_values (normalize_names g)) =
        sort_values (normalize_names g) := by
      unfold replaceVals
      have : ∀ a ∈ sort_values (normalize_names g), applyRename a = a := by
        intro a ha
        exact normalizePass_elem_fix
          ((sort_values_perm (normalize_names g)).mem_iff.mp ha)
      rw [List.map_congr_left this, List.map_id']
    rw [h1]
    have h2 : (sort_values (normalize_names g)).Nodup :=
      ((sort_values_perm (normalize_names g)).nodup_iff).mpr
        (nodup_normalizePass (stack g))
    unfold drop_duplicates
    exact dropDupSeen_eq_self [] _ h2 (by simp)
  refine ⟨key, ?_, ?_⟩
  · rw [key]
    exact sort_values_perm _
  · intro hs
    rw [key]
    exact sort_values_eq_of_sorted hs

/-- Witness for the amended C9 at a concrete already-sorted output. -/
theorem normalize_reapply_witness :
    List.Sorted (· ≤ ·) (normalize_names (oneColGrid ["Snake"]))
    ∧ normalize_names (oneColGrid (normalize_names (oneColGrid ["Snake"]))) =
        normalize_names (oneColGrid ["Snake"]) := by
  have hs : normalize_names (oneColGrid ["Snake"]) = ["Snake"] := by decide
  have hsorted : List.Sorted (· ≤ ·) (normalize_names (oneColGrid ["Snake"])) := by
    rw [hs]
    simp
  exact ⟨hsorted, (normalize_reapply (oneColGrid ["Snake"])).2.2 hsorted⟩

theorem rowBlankSecond_mapSecondCell (f : Cell → Cell) (r : List Cell) :
    rowBlankSecond (mapSecondCell f r) = rowBlankSecond r := by
  match r with
  | [] => rfl
  | [a] => rfl
  | a :: b :: t => rfl

theorem blankSecond_mapSecond (f : Cell → Cell) (g : Grid) :
    blankSecondColumn (mapSecondColumn f g) = blankSecondColumn g := by
  have hrows : (g.rows.map (mapSecondCell f)).map rowBlankSecond =
      g.rows.map rowBlankSecond := by
    rw [List.map_map]
    exact List.map_congr_left (fun r _ => rowBlankSecond_mapSecondCell f r)
  show (if 2 ≤ g.ncols then
      Except.ok
        (Grid.mk g.ncols ((g.rows.map (mapSecondCell f)).map rowBlankSecond))
    else Except.error
      (ScrapeError.indexErr "single positional indexer is out-of-bounds")) =
    blankSecondColumn g
  rw [hrows]
  rfl

/-- Claim C4: under the snake_mongoose dataset key (which reaches the
blanking branch through the substring test on the output path), every value
of the second column is discarded before flattening: the processing result
is entirely independent of the second column's contents, so none of its raw
values can appear in the normalized output or in the written export. -/
theorem snake_mongoose_discards_second_column (outfile : String) (g : Grid)
    (f : Cell → Cell) (hsub : strContains outfile "snake_mongoose" = true)
    (h2 : 2 ≤ g.ncols) :
    process_grid outfile (mapSecondColumn f g) = process_grid outfile g := by
  unfold process_grid
  rw [hsub, blankSecond_mapSecond]
  simp

/-- Witness for C4: rewriting the second column of a concrete grid (here to
the value EVIL) leaves the snake_mongoose processing result unchanged. -/
theorem snake_mongoose_discards_second_column_witness :
    strContains (outfileFor "snake_mongoose") "snake_mongoose" = true
    ∧ 2 ≤ wGrid2.ncols
    ∧ process_grid (outfileFor "snake_mongoose")
        (mapSecondColumn (fun _ => some "EVIL") wGrid2) =
      process_grid (outfileFor "snake_mongoose") wGrid2 :=
  ⟨by decide, by decide,
    snake_mongoose_discards_second_column (outfileFor "snake_mongoose") wGrid2
      (fun _ => some "EVIL") (by decide) (by decide)⟩

/-- Claim C5: the Group Processor never propagates a failure: whatever the
environment does — fetch exception, HTTP error status, missing or empty
table, bad index, blanking failure, filesystem error — every error produced
inside the try block is converted to the null result, and on every
environment the call returns either null or a value. -/
theorem scrape_url_catches_all_errors (env : ScrapeEnv) (tableIndex : Nat)
    (outfile col : String) :
    (∀ e, (scrape_attempt env tableIndex outfile).1 = Except.error e →
      scrape_url env tableIndex outfile col = none)
    ∧ ((∃ e, (scrape_attempt env tableIndex outfile).1 = Except.error e)
        ∨ (∃ names, scrape_url env tableIndex outfile col = some names)) := by
  constructor
  · intro e he
    unfold scrape_url
    rw [he]
    rfl
  · cases h : (scrape_attempt env tableIndex outfile).1 with
    | error e => exact Or.inl ⟨e, rfl⟩
    | ok v =>
      refine Or.inr ⟨v, ?_⟩
      unfold scrape_url
      rw [h]
      rfl

/-- Witness for C5 at a concrete failing environment (page without a
table element): the attempt errors and the call returns null. -/
theorem scrape_url_catches_all_errors_witness :
    (scrape_attempt wEnvNoTable 0 (outfileFor "1968")).1 =
      Except.error (ScrapeError.valueErr "No table found")
    ∧ scrape_url wEnvNoTable 0 (outfileFor "1968") "Casting" = none :=
  ⟨rfl,
    (scrape_url_catches_all_errors wEnvNoTable 0 (outfileFor "1968") "Casting").1
      (ScrapeError.valueErr "No table found") rfl⟩

/-- Claim C6: on a successfully fetched page whose HTML has no table
element, and likewise on a page whose table element has no rows, the
extraction step fails with a ValueError-kind error (the NoTableError of the
specification) rather than producing an empty grid, and the Group
Processor returns null for that unit. -/
theorem missing_or_empty_table_yields_null (env : ScrapeEnv)
    (tableIndex : Nat) (outfile col : String) (s : Nat)
    (hf : env.fetch = Except.ok s) (hs : ¬(400 ≤ s ∧ s < 600))
    (ht : env.pageTables = none ∨ env.pageTables = some []) :
    (∃ msg, (scrape_attempt env tableIndex outfile).1 =
        Except.error (ScrapeError.valueErr msg))
    ∧ scrape_url env tableIndex outfile col = none := by
  have hr : raise_for_status s = Except.ok () := by
    unfold raise_for_status
    rw [if_neg hs]
  rcases ht with h | h
  · constructor
    · exact ⟨"No table found", by simp [scrape_attempt, hf, hr, h]⟩
    · simp [scrape_url, scrape_attempt, hf, hr, h, Except.toOption]
  · have hsel : read_html_select [] tableIndex =
        Except.error (ScrapeError.valueErr "No tables found") := rfl
    constructor
    · exact ⟨"No tables found", by simp [scrape_attempt, hf, hr, h, hsel]⟩
    · simp [scrape_url, scrape_attempt, hf, hr, h, hsel, Except.toOption]

/-- Witness for C6 at the empty-table environment: status 200, a table
element that parses to no logical tables, null result. -/
theorem missing_or_empty_table_yields_null_witness :
    (wEnvEmptyTable.fetch = Except.ok 200)
    ∧ ¬(400 ≤ 200 ∧ 200 < 600)
    ∧ (wEnvEmptyTable.pageTables = none ∨ wEnvEmptyTable.pageTables = some [])
    ∧ ((∃ msg, (scrape_attempt wEnvEmptyTable 0 (outfileFor "1968")).1 =
          Except.error (ScrapeError.valueErr msg))
        ∧ scrape_url wEnvEmptyTable 0 (outfileFor "1968") "Casting" = none) :=
  ⟨rfl, by decide, Or.inr rfl,
    missing_or_empty_table_yields_null wEnvEmptyTable 0 (outfileFor "1968")
      "Casting" 200 rfl (by decide) (Or.inr rfl)⟩

/-- Counterexample to claim C8 as stated: `raise_for_status` only raises
for statuses 400–599, so a non-2xx status such as 304 is not treated as a
NetworkError; with a valid table on the page the Group Processor returns a
value, not null. -/
theorem non2xx_not_network_error_cex :
    ¬ (200 ≤ 304 ∧ 304 < 300)
    ∧ scrape_url cexEnv304 0 (outfileFor "1968") "Casting" = some ["Snake"]
    ∧ scrape_url cexEnv304 0 (outfileFor "1968") "Casting" ≠ none := by
  decide

/-- Claim C8 (amended): every response whose final status lies in 400–599
is treated as a NetworkError by `raise_for_status`, so the Group Processor
returns null for that unit; other statuses (2xx, but also 1xx/3xx such as
304) pass the check. -/
theorem http_error_statuses_yield_null (env : ScrapeEnv) (tableIndex : Nat)
    (outfile col : String) (s : Nat) (hf : env.fetch = Except.ok s)
    (h4 : 400 ≤ s) (h6 : s < 600) :
    (scrape_attempt env tableIndex outfile).1 =
      Except.error (ScrapeError.network "HTTP error status")
    ∧ scrape_url env tableIndex outfile col = none := by
  have hr : raise_for_status s =
      Except.error (ScrapeError.network "HTTP error status") := by
    unfold raise_for_status
    rw [if_pos ⟨h4, h6⟩]
  constructor
  · simp [scrape_attempt, hf, hr]
  · simp [scrape_url, scrape_attempt, hf, hr, Except.toOption]

/-- Witness for the amended C8 at status 404. -/
theorem http_error_statuses_yield_null_witness :
    (wEnv404.fetch = Except.ok 404) ∧ 400 ≤ 404 ∧ 404 < 600
    ∧ ((scrape_attempt wEnv404 0 (outfileFor "1968")).1 =
        Except.error (ScrapeError.network "HTTP error status")
      ∧ scrape_url wEnv404 0 (outfileFor "1968") "Casting" = none) :=
  ⟨rfl, by decide, by decide,
    http_error_statuses_yield_null wEnv404 0 (outfileFor "1968") "Casting" 404
      rfl (by decide) (by decide)⟩

/-- Claim C10: on the snake_mongoose dataset, when the selected parsed
table has fewer than two columns the blanking assignment fails with an
IndexError-kind error, the failure is caught, the processor returns null,
and no export file is written (the write step is sequenced after the
blanking, so the writes list of the attempt is empty). -/
theorem snake_mongoose_one_column_null (env : ScrapeEnv) (tableIndex : Nat)
    (outfile col : String) (s : Nat) (ts : List Grid) (g : Grid)
    (hf : env.fetch = Except.ok s) (hs : ¬(400 ≤ s ∧ s < 600))
    (hp : env.pageTables = some ts) (hg : ts[tableIndex]? = some g)
    (hn : g.ncols < 2) (hsub : strContains outfile "snake_mongoose" = true) :
    scrape_url env tableIndex outfile col = none
    ∧ scrape_writes env tableIndex outfile col = []
    ∧ (scrape_attempt env tableIndex outfile).1 =
        Except.error
          (ScrapeError.indexErr "single positional indexer is out-of-bounds") := by
  have hr : raise_for_status s = Except.ok () := by
    unfold raise_for_status
    rw [if_neg hs]
  have hne : ts.isEmpty = false := by
    cases ts with
    | nil => simp at hg
    | cons a l => rfl
  have hsel : read_html_select ts tableIndex = Except.ok g := by
    simp [read_html_select, hne, hg]
  have hblank : blankSecondColumn g =
      Except.error
        (ScrapeError.indexErr "single positional indexer is out-of-bounds") := by
    unfold blankSecondColumn
    rw [if_neg (by omega)]
  have hpg : process_grid outfile g =
      Except.error
        (ScrapeError.indexErr "single positional indexer is out-of-bounds") := by
    simp [process_grid, hsub, hblank]
  refine ⟨?_, ?_, ?_⟩ <;>
    simp [scrape_url, scrape_writes, scrape_attempt, hf, hr, hp, hsel, hpg,
      Except.toOption]

/-- Witness for C10 at a concrete one-column snake_mongoose environment. -/
theorem snake_mongoose_one_column_null_witness :
    (wEnvOneCol.fetch = Except.ok 200)
    ∧ ¬(400 ≤ 200 ∧ 200 < 600)
    ∧ (wEnvOneCol.pageTables = some [wGridOneCol])
    ∧ ([wGridOneCol][0]? = some wGridOneCol)
    ∧ wGridOneCol.ncols < 2
    ∧ strContains (outfileFor "snake_mongoose") "snake_mongoose" = true
    ∧ (scrape_url wEnvOneCol 0 (outfileFor "snake_mongoose") "Casting" = none
      ∧ scrape_writes wEnvOneCol 0 (outfileFor "snake_mongoose") "Casting" = []
      ∧ (scrape_attempt wEnvOneCol 0 (outfileFor "snake_mongoose")).1 =
          Except.error
            (ScrapeError.indexErr "single positional indexer is out-of-bounds")) :=
  ⟨rfl, by decide, rfl, rfl, by decide, by decide,
    snake_mongoose_one_column_null wEnvOneCol 0 (outfileFor "snake_mongoose")
      "Casting" 200 [wGridOneCol] wGridOneCol rfl (by decide) rfl rfl
      (by decide) (by decide)⟩

/-- Claim C7: units whose Group Processor returned null contribute no rows
to the combined table — every row of the combined table is a well-formed
two-cell row (name, label) coming from some unit whose processor returned a
value — and when every unit returns null the Batch Orchestrator returns the
empty frame with no columns and no rows, without raising. -/
theorem batch_excludes_null_units (col dictKey : String)
    (world : String → ScrapeEnv) (units : List (String × Nat)) :
    ((∀ u ∈ units,
        scrape_url (world (urlFor u.1)) u.2 (outfileFor u.1) col = none) →
      create_csv_files col dictKey world units = { cols := [], rows := [] })
    ∧ (∀ row ∈ (create_csv_files col dictKey world units).rows,
        ∃ u ∈ units, ∃ names,
          scrape_url (world (urlFor u.1)) u.2 (outfileFor u.1) col =
            some names
          ∧ ∃ n ∈ names, row = [some n, some u.1]) := by
  constructor
  · intro h
    have hnil : units.filterMap (fun u =>
        (scrape_url (world (urlFor u.1)) u.2 (outfileFor u.1) col).map
          (fun names => (names, u.1))) = [] := by
      rw [List.filterMap_eq_nil_iff]
      intro u hu
      rw [h u hu]
      rfl
    unfold create_csv_files
    rw [hnil]
    rfl
  · intro row hrow
    cases hE : (units.filterMap (fun u =>
        (scrape_url (world (urlFor u.1)) u.2 (outfileFor u.1) col).map
          (fun names => (names, u.1)))).isEmpty with
    | true =>
      unfold create_csv_files at hrow
      rw [hE] at hrow
      simp at hrow
    | false =>
      unfold create_csv_files at hrow
      rw [hE] at hrow
      simp only [Bool.false_eq_true, if_false] at hrow
      obtain ⟨inner, hinner, hrowin⟩ := List.mem_flatten.mp hrow
      obtain ⟨p, hp, rfl⟩ := List.mem_map.mp hinner
      obtain ⟨u, hu, hup⟩ := List.mem_filterMap.mp hp
      obtain ⟨names, hsc, hpe⟩ := Option.map_eq_some'.mp hup
      subst hpe
      obtain ⟨n, hn, rfl⟩ := List.mem_map.mp hrowin
      exact ⟨u, hu, names, hsc, n, hn, rfl⟩

/-- Witness for C7: a world in which every fetch fails; the single unit
returns null and the combined table is completely empty. -/
theorem batch_excludes_null_units_witness :
    (∀ u ∈ [(("1968" : String), (0 : Nat))],
      scrape_url (wWorldFail (urlFor u.1)) u.2 (outfileFor u.1) "Casting" =
        none)
    ∧ create_csv_files "Casting" "Year" wWorldFail [("1968", 0)] =
        { cols := [], rows := [] } := by
  have h : ∀ u ∈ [(("1968" : String), (0 : Nat))],
      scrape_url (wWorldFail (urlFor u.1)) u.2 (outfileFor u.1) "Casting" =
        none := by decide
  exact ⟨h,
    (batch_excludes_null_units "Casting" "Year" wWorldFail [("1968", 0)]).1 h⟩
